import Mathlib

/-!
Shallow embedding of `src/gdi/imp_layers.py` (class `GDIDataLayerImp`), the
Caffe data layer feeding (image, importance-map) pairs for the GDI model.
Machine floats are modelled as exact rationals; numpy arrays as nested lists;
the filesystem as a lookup function; Python exceptions as `Except`.
-/

namespace GDI

/-- Modelled from the spec: Python's `random` module is an external library,
not code of this repository.  The spec requires only a deterministic source,
reseedable with an integer, whose `randint lo hi` draw lies in `[lo, hi]`.
We model the generator state as a `Nat` and the draw as a linear-congruential
step reduced into the requested range; `random.seed s` sets the state to `s`. -/
def lcgNext (s : Nat) : Nat :=
  (6364136223846793005 * s + 1442695040888963407) % (2 ^ 64)

/-- Modelled from the spec: `random.randint(lo, hi)`, a draw in `[lo, hi]`
together with the successor generator state. -/
def randint (lo hi : Nat) (s : Nat) : Nat × Nat :=
  (lo + lcgNext s % (hi - lo + 1), lcgNext s)

/-- Split a character list at every newline; the segment after the final
newline (possibly empty) is the last element.  Mirrors the line scan inside
Python's `str.splitlines`. -/
def splitOnNl : List Char → List (List Char)
  | [] => [[]]
  | c :: rest =>
    if c = '\n' then [] :: splitOnNl rest
    else
      match splitOnNl rest with
      | [] => [[c]]
      | l :: ls => (c :: l) :: ls

/-- Python's `str.splitlines()` on the manifest content (newline-terminated
lines): the empty string yields `[]`, and a trailing newline contributes no
empty final entry, but interior empty lines are kept as empty entries. -/
def pySplitlines (s : List Char) : List (List Char) :=
  match s with
  | [] => []
  | _ :: _ =>
    let parts := splitOnNl s
    if parts.getLast? = some [] then parts.dropLast else parts

/-- Does `pat` begin the list `s`?  Helper for the substring test below. -/
def beginsWith : List Char → List Char → Bool
  | [], _ => true
  | _ :: _, [] => false
  | p :: ps, c :: cs => p = c && beginsWith ps cs

/-- Substring containment on character lists: Python's `pat in s`. -/
def hasSub (pat : List Char) : List Char → Bool
  | [] => beginsWith pat []
  | c :: cs => beginsWith pat (c :: cs) || hasSub pat cs

/-- Python's `'train' in split` test from `setup`. -/
def containsTrain (split : String) : Bool :=
  hasSub "train".toList split.toList

/-- The layer parameters read from `param_str` in `setup` (`train_dir`,
`split`, `mean`, `randomize` with its default `True` already resolved,
`seed` defaulting to `None`, `binarize`). -/
structure Config where
  train_dir : String
  split : String
  mean : List ℚ
  randomize : Bool
  seed : Option Nat
  binarize : Bool
  deriving DecidableEq

/-- A decoded image as numpy sees it after `np.array(Image.open ...)`: a
grayscale file gives a 2-D array, a color file a 3-D array (rows of pixels,
each pixel a channel list). -/
inductive Decoded where
  | gray (g : List (List Nat))
  | color (g : List (List (List Nat)))
  deriving DecidableEq

/-- The label tensor is a boolean array when `binarize` holds and a float
array otherwise (Python is dynamically typed; the two branches of
`load_label` produce different dtypes). -/
abbrev LabelTensor := Sum (List (List (List Bool))) (List (List (List ℚ)))

/-- The mutable state of a `GDIDataLayerImp` instance: the configuration
fields copied in `setup`, the index list, the cursor `idx`, the
pseudo-random generator state (Python keeps it in the global `random`
module; we thread it through the instance), and the `data` / `label`
attributes set by `reshape`. -/
structure LayerState where
  maindir : String
  split : String
  mean : List ℚ
  random : Bool
  seed : Option Nat
  binarize : Bool
  indices : List String
  idx : Nat
  rng : Nat
  data : Option (List (List (List ℚ)))
  label : Option LabelTensor
  deriving DecidableEq

/-- The state built by `setup` after its top/bottom validation: read the
manifest with `splitlines`, set `idx := 0`, force `random := False` when
the split name lacks `"train"`, and when random reseed from `seed` (or from
the ambient generator state `amb` when `seed` is `None`) and draw the first
cursor position with `randint 0 (len - 1)`. -/
def setupState (cfg : Config) (manifest : List Char) (amb : Nat) : LayerState :=
  let indices := (pySplitlines manifest).map (fun l => String.mk l)
  let rand := if containsTrain cfg.split then cfg.randomize else false
  if rand then
    let rng0 := cfg.seed.getD amb
    let p := randint 0 (indices.length - 1) rng0
    ⟨cfg.train_dir, cfg.split, cfg.mean, rand, cfg.seed, cfg.binarize,
      indices, p.1, p.2, none, none⟩
  else
    ⟨cfg.train_dir, cfg.split, cfg.mean, rand, cfg.seed, cfg.binarize,
      indices, 0, amb, none, none⟩

/-- `setup` with its slot validation: two tops and no bottoms, otherwise the
corresponding `Exception` is raised. -/
def setup (cfg : Config) (nBottom nTop : Nat) (manifest : List Char)
    (amb : Nat) : Except String LayerState :=
  if nTop ≠ 2 then .error "Need to define two tops: data and label."
  else if nBottom ≠ 0 then .error "Do not define a bottom."
  else .ok (setupState cfg manifest amb)

/-- The cursor-advance part of `forward`: a fresh `randint 0 (len - 1)` draw
when random, else increment by one and reset to zero exactly on reaching
`len(indices)`. -/
def forward (st : LayerState) : LayerState :=
  if st.random then
    let p := randint 0 (st.indices.length - 1) st.rng
    { st with idx := p.1, rng := p.2 }
  else
    { st with idx := if st.idx + 1 = st.indices.length then 0 else st.idx + 1 }

/-- `k` successive `forward` calls. -/
def forwardN : Nat → LayerState → LayerState
  | 0, st => st
  | k + 1, st => forward (forwardN k st)

/-- The path `'{}/GDI/gd_train/{}.jpg'.format(maindir, idx)` of `load_image`. -/
def imagePath (maindir stem : String) : String :=
  maindir ++ "/GDI/gd_train/" ++ stem ++ ".jpg"

/-- The path `'{}/GDI/gd_imp_train/{}.png'.format(maindir, idx)` of
`load_label`. -/
def labelPath (maindir stem : String) : String :=
  maindir ++ "/GDI/gd_imp_train/" ++ stem ++ ".png"

/-- The read-only filesystem the layer sees: decoded jpg content per path,
and decoded grayscale png content (uint8 values) per path; `none` stands
for a missing or unreadable file. -/
structure FS where
  image : String → Option Decoded
  labelFile : String → Option (List (List Nat))

/-- `in_.transpose((2,0,1))` on an array whose last axis has the three
channels (guaranteed at this point of `load_image`): element `[c][h][w]`
of the result is element `[h][w][c]` of the argument. -/
def transpose201 (a : List (List (List ℚ))) : List (List (List ℚ)) :=
  (List.range 3).map (fun c => a.map (List.map (fun px => px.getD c 0)))

/-- The pure preprocessing pipeline of `load_image` on a decoded 3-channel
array: cast to float, reverse the channel axis (`in_[:,:,::-1]`), subtract
the mean elementwise per channel (`in_ -= self.mean`), transpose to
channel-first. -/
def load_image_core (mean : List ℚ) (im : List (List (List Nat))) :
    List (List (List ℚ)) :=
  transpose201
    ((((im.map (List.map (List.map (fun (v : Nat) => ((v : ℚ)))))).map
        (List.map List.reverse)).map
        (List.map (fun px => List.zipWith (fun a b => a - b) px mean))))

/-- `load_image`: open the jpg (an `IOError` when missing or unreadable),
then run the pipeline.  A grayscale file decodes to a 2-D array and
`in_[:,:,::-1]` raises `IndexError`; a color file whose pixels do not have
exactly 3 components makes the in-place mean subtraction raise a
broadcasting `ValueError`.  All three failures surface as exceptions. -/
def load_image (fsi : String → Option Decoded) (maindir : String)
    (mean : List ℚ) (stem : String) :
    Except String (List (List (List ℚ))) :=
  match fsi (imagePath maindir stem) with
  | none => .error "IOError"
  | some (.gray _) => .error "IndexError"
  | some (.color g) =>
    if g.all (fun row => row.all (fun px => px.length = 3)) then
      .ok (load_image_core mean g)
    else .error "ValueError"

/-- The `binarize` branch of `load_label`: `label = label > 255.0*2/3`,
then `label[np.newaxis, ...]`. -/
def load_label_bin (png : List (List Nat)) : List (List (List Bool)) :=
  [png.map (List.map (fun (v : Nat) => decide ((255 * 2 / 3 : ℚ) < (v : ℚ))))]

/-- The rescale branch of `load_label`: `label = label / 255.0`, then
`label[np.newaxis, ...]`. -/
def load_label_resc (png : List (List Nat)) : List (List (List ℚ)) :=
  [png.map (List.map (fun (v : Nat) => (v : ℚ) / 255))]

/-- `load_label`: open the png (an `IOError` when missing or unreadable),
decode to uint8, then threshold or rescale and add the leading singleton
axis. -/
def load_label (fsl : String → Option (List (List Nat))) (maindir : String)
    (binarize : Bool) (stem : String) : Except String LabelTensor :=
  match fsl (labelPath maindir stem) with
  | none => .error "IOError"
  | some g =>
    .ok (if binarize then .inl (load_label_bin g) else .inr (load_label_resc g))

/-- `reshape`: resolve `self.indices[self.idx]` (an `IndexError` when out of
range), load the image and the label, and store them in `self.data` and
`self.label`.  The top-blob shape announcements carry no layer state. -/
def reshape (fs : FS) (st : LayerState) : Except String LayerState :=
  match st.indices[st.idx]? with
  | none => .error "IndexError"
  | some stem =>
    match load_image fs.image st.maindir st.mean stem with
    | .error e => .error e
    | .ok d =>
      match load_label fs.labelFile st.maindir st.binarize stem with
      | .error e => .error e
      | .ok l => .ok { st with data := some d, label := some l }

/-- Element access in a 2-D nested list. -/
def cell2 (g : List (List α)) (h w : Nat) : Option α :=
  (g[h]?).bind (fun r => r[w]?)

/-- Element access in a 3-D nested list. -/
def cell3 (a : List (List (List α))) (c h w : Nat) : Option α :=
  (a[c]?).bind (fun p => cell2 p h w)

/-- `a` has shape `(c, h, w)`: `c` planes, each of `h` rows of `w` entries. -/
def isShape (a : List (List (List α))) (c h w : Nat) : Prop :=
  a.length = c ∧ ∀ p ∈ a, p.length = h ∧ ∀ r ∈ p, r.length = w

instance (a : List (List (List α))) (c h w : Nat) :
    Decidable (isShape a c h w) := by
  unfold isShape
  infer_instance

/-! Helper lemmas about the cursor. -/

lemma forward_random_eq (st : LayerState) : (forward st).random = st.random := by
  unfold forward
  split <;> rfl

lemma forward_indices_eq (st : LayerState) : (forward st).indices = st.indices := by
  unfold forward
  split <;> rfl

lemma forwardN_random_eq (k : Nat) (st : LayerState) :
    (forwardN k st).random = st.random := by
  induction k with
  | zero => rfl
  | succ k ih => rw [forwardN, forward_random_eq, ih]

lemma forwardN_indices_eq (k : Nat) (st : LayerState) :
    (forwardN k st).indices = st.indices := by
  induction k with
  | zero => rfl
  | succ k ih => rw [forwardN, forward_indices_eq, ih]

lemma forward_seq_idx (st : LayerState) (h : st.random = false) :
    (forward st).idx = if st.idx + 1 = st.indices.length then 0 else st.idx + 1 := by
  unfold forward
  rw [h]
  rfl

/-- In sequential mode the cursor after `k` advances from a valid position is
addition modulo the manifest length. -/
lemma forwardN_seq_idx (st : LayerState) (h : st.random = false)
    (hlt : st.idx < st.indices.length) (k : Nat) :
    (forwardN k st).idx = (st.idx + k) % st.indices.length := by
  have hn : 0 < st.indices.length := Nat.lt_of_le_of_lt (Nat.zero_le _) hlt
  induction k with
  | zero => exact (Nat.mod_eq_of_lt hlt).symm
  | succ k ih =>
    rw [forwardN, forward_seq_idx _ (by rw [forwardN_random_eq, h]),
      forwardN_indices_eq, ih]
    have hmod : (st.idx + k) % st.indices.length < st.indices.length :=
      Nat.mod_lt _ hn
    have key : ((st.idx + k) % st.indices.length + 1) % st.indices.length
        = (st.idx + k + 1) % st.indices.length :=
      (Nat.mod_modEq (st.idx + k) st.indices.length).add_right 1
    rw [← Nat.add_assoc]
    by_cases hend : (st.idx + k) % st.indices.length + 1 = st.indices.length
    · rw [if_pos hend]
      rw [hend, Nat.mod_self] at key
      exact key
    · rw [if_neg hend]
      have hlt2 : (st.idx + k) % st.indices.length + 1 < st.indices.length := by
        omega
      rw [Nat.mod_eq_of_lt hlt2] at key
      exact key

/-- When the `random` field of the state built by `setup` is off, the whole
state is the sequential one: cursor at 0, ambient generator untouched. -/
lemma setupState_random_def (cfg : Config) (manifest : List Char) (amb : Nat) :
    (setupState cfg manifest amb).random =
      (if containsTrain cfg.split then cfg.randomize else false) := by
  unfold setupState
  cases hb : (if containsTrain cfg.split then cfg.randomize else false) <;>
    simp [hb]

lemma setupState_of_not_random (cfg : Config) (manifest : List Char) (amb : Nat)
    (hr : (setupState cfg manifest amb).random = false) :
    setupState cfg manifest amb =
      ⟨cfg.train_dir, cfg.split, cfg.mean, false, cfg.seed, cfg.binarize,
        (pySplitlines manifest).map (fun l => String.mk l), 0, amb, none, none⟩ := by
  have hb : (if containsTrain cfg.split then cfg.randomize else false) = false := by
    rw [← setupState_random_def cfg manifest amb]
    exact hr
  simp [setupState, hb]

/-- Shared content of the sequential-iteration claims: with the `random`
field off after `setup`, the cursor starts at 0 and after `k` forwards sits
at `k mod N`. -/
lemma setup_seq_cycle (cfg : Config) (manifest : List Char) (amb : Nat)
    (hr : (setupState cfg manifest amb).random = false)
    (hn : 1 ≤ (setupState cfg manifest amb).indices.length) (k : Nat) :
    (setupState cfg manifest amb).idx = 0 ∧
    (forwardN k (setupState cfg manifest amb)).idx =
      k % (setupState cfg manifest amb).indices.length := by
  have he := setupState_of_not_random cfg manifest amb hr
  have hidx : (setupState cfg manifest amb).idx = 0 := by rw [he]
  refine ⟨hidx, ?_⟩
  have := forwardN_seq_idx (setupState cfg manifest amb) hr
    (by rw [hidx]; omega) k
  rwa [hidx, Nat.zero_add] at this

/-- C1: with randomization inactive, the cursor starts at 0 after `setup`
and after `k` calls to `forward` sits at `k mod N`: the positions
`0, 1, ..., N-1` are visited in order and then the cursor wraps to 0,
skipping and repeating nothing within a cycle. -/
theorem c1_sequential_cycle (cfg : Config) (manifest : List Char) (amb : Nat)
    (hr : (setupState cfg manifest amb).random = false)
    (hn : 1 ≤ (setupState cfg manifest amb).indices.length) (k : Nat) :
    (setupState cfg manifest amb).idx = 0 ∧
    (forwardN k (setupState cfg manifest amb)).idx =
      k % (setupState cfg manifest amb).indices.length :=
  setup_seq_cycle cfg manifest amb hr hn k

/-- C1 witness: a three-entry manifest in a non-random configuration,
after four `forward` calls the cursor is `4 mod 3 = 1`. -/
theorem c1_sequential_cycle_witness :
    (setupState ⟨"d", "val", [1, 2, 3], true, some 5, true⟩ "a\nb\nc\n".toList 0).idx
        = 0 ∧
    (forwardN 4 (setupState ⟨"d", "val", [1, 2, 3], true, some 5, true⟩
        "a\nb\nc\n".toList 0)).idx =
      4 % (setupState ⟨"d", "val", [1, 2, 3], true, some 5, true⟩
        "a\nb\nc\n".toList 0).indices.length :=
  c1_sequential_cycle ⟨"d", "val", [1, 2, 3], true, some 5, true⟩
    "a\nb\nc\n".toList 0 (by decide) (by decide) 4

/-- C2: when the split name lacks the substring "train", `setup` forces
`random := False` whatever `randomize` was, makes no random draw (the first
cursor is 0), and every later `forward` advances sequentially. -/
theorem c2_eval_forces_sequential (cfg : Config) (manifest : List Char)
    (amb : Nat) (hs : containsTrain cfg.split = false)
    (hn : 1 ≤ (setupState cfg manifest amb).indices.length) (k : Nat) :
    (setupState cfg manifest amb).random = false ∧
    (setupState cfg manifest amb).idx = 0 ∧
    (forwardN k (setupState cfg manifest amb)).idx =
      k % (setupState cfg manifest amb).indices.length := by
  have hr : (setupState cfg manifest amb).random = false := by
    unfold setupState
    simp only [hs, Bool.false_eq_true, if_false]
  obtain ⟨h0, hcyc⟩ := setup_seq_cycle cfg manifest amb hr hn k
  exact ⟨hr, h0, hcyc⟩

/-- C2 witness: split "valid" with `randomize := true` still iterates
sequentially over a two-entry manifest. -/
theorem c2_eval_forces_sequential_witness :
    (setupState ⟨"d", "valid", [1, 2, 3], true, some 9, false⟩ "a\nb\n".toList 7).random
        = false ∧
    (setupState ⟨"d", "valid", [1, 2, 3], true, some 9, false⟩ "a\nb\n".toList 7).idx
        = 0 ∧
    (forwardN 3 (setupState ⟨"d", "valid", [1, 2, 3], true, some 9, false⟩
        "a\nb\n".toList 7)).idx =
      3 % (setupState ⟨"d", "valid", [1, 2, 3], true, some 9, false⟩
        "a\nb\n".toList 7).indices.length :=
  c2_eval_forces_sequential ⟨"d", "valid", [1, 2, 3], true, some 9, false⟩
    "a\nb\n".toList 7 (by decide) (by decide) 3

/-- The first component of a `randint 0 (n-1)` draw lies in `[0, n-1]`. -/
lemma randint_le (n s : Nat) (hn : 1 ≤ n) : (randint 0 (n - 1) s).1 ≤ n - 1 := by
  show 0 + lcgNext s % (n - 1 - 0 + 1) ≤ n - 1
  have h1 : n - 1 - 0 + 1 = n := by omega
  rw [h1, Nat.zero_add]
  have := Nat.mod_lt (lcgNext s) (show 0 < n by omega)
  omega

/-- When the `random` field of the state built by `setup` is on, the state
is the reseeded one with a first `randint` draw as cursor. -/
lemma setupState_of_random (cfg : Config) (manifest : List Char) (amb : Nat)
    (hr : (setupState cfg manifest amb).random = true) :
    setupState cfg manifest amb =
      ⟨cfg.train_dir, cfg.split, cfg.mean, true, cfg.seed, cfg.binarize,
        (pySplitlines manifest).map (fun l => String.mk l),
        (randint 0 ((pySplitlines manifest).length - 1) (cfg.seed.getD amb)).1,
        (randint 0 ((pySplitlines manifest).length - 1) (cfg.seed.getD amb)).2,
        none, none⟩ := by
  have hb : (if containsTrain cfg.split then cfg.randomize else false) = true := by
    rw [← setupState_random_def cfg manifest amb]
    exact hr
  simp [setupState, hb]

/-- In random mode every cursor position reached by `forward` is a
`randint 0 (n-1)` draw and stays in `[0, n-1]`. -/
lemma forwardN_random_le (st : LayerState) (h : st.random = true)
    (hn : 1 ≤ st.indices.length) (h0 : st.idx ≤ st.indices.length - 1) (k : Nat) :
    (forwardN k st).idx ≤ st.indices.length - 1 := by
  induction k with
  | zero => exact h0
  | succ k ih =>
    rw [forwardN]
    have hr' : (forwardN k st).random = true := by
      rw [forwardN_random_eq, h]
    unfold forward
    rw [hr']
    simp only [if_pos rfl, forwardN_indices_eq]
    exact randint_le st.indices.length _ hn

/-- C3: with a fixed seed, two runs over the same manifest (under different
ambient generator states) produce the identical sequence of cursor
positions, and every position after `setup` and after each `forward` lies
in `[0, N-1]`. -/
theorem c3_fixed_seed_deterministic_in_range (cfg : Config) (manifest : List Char)
    (amb1 amb2 : Nat) (s : Nat) (hseed : cfg.seed = some s)
    (hr : (setupState cfg manifest amb1).random = true)
    (hn : 1 ≤ (setupState cfg manifest amb1).indices.length) (k : Nat) :
    (forwardN k (setupState cfg manifest amb1)).idx
      = (forwardN k (setupState cfg manifest amb2)).idx ∧
    (forwardN k (setupState cfg manifest amb1)).idx
      ≤ (setupState cfg manifest amb1).indices.length - 1 := by
  have hr2 : (setupState cfg manifest amb2).random = true := by
    rw [setupState_random_def] at hr ⊢
    exact hr
  have he1 := setupState_of_random cfg manifest amb1 hr
  have he2 := setupState_of_random cfg manifest amb2 hr2
  have heq : setupState cfg manifest amb1 = setupState cfg manifest amb2 := by
    rw [he1, he2, hseed]
    simp [Option.getD]
  refine ⟨by rw [heq], ?_⟩
  have hnlen : 1 ≤ (pySplitlines manifest).length := by
    rw [he1] at hn
    simpa using hn
  have h0 : (setupState cfg manifest amb1).idx
      ≤ (setupState cfg manifest amb1).indices.length - 1 := by
    rw [he1]
    simpa using randint_le (pySplitlines manifest).length
      (cfg.seed.getD amb1) hnlen
  exact forwardN_random_le _ hr hn h0 k

/-- C3 witness: split "train", seed 11, two ambient states 0 and 1000,
three forwards over a two-entry manifest. -/
theorem c3_fixed_seed_witness :
    (forwardN 3 (setupState ⟨"d", "train", [0], true, some 11, true⟩
        "a\nb\n".toList 0)).idx
      = (forwardN 3 (setupState ⟨"d", "train", [0], true, some 11, true⟩
        "a\nb\n".toList 1000)).idx ∧
    (forwardN 3 (setupState ⟨"d", "train", [0], true, some 11, true⟩
        "a\nb\n".toList 0)).idx
      ≤ (setupState ⟨"d", "train", [0], true, some 11, true⟩
        "a\nb\n".toList 0).indices.length - 1 :=
  c3_fixed_seed_deterministic_in_range ⟨"d", "train", [0], true, some 11, true⟩
    "a\nb\n".toList 0 1000 11 rfl (by decide) (by decide) 3

/-! Manifest lines: helpers for the `splitlines` analysis. -/

/-- Join lines into file content, terminating each line with a newline. -/
def joinLines : List (List Char) → List Char
  | [] => []
  | l :: ls => l ++ '\n' :: joinLines ls

lemma joinLines_cons_ne_nil (l : List Char) (ls : List (List Char)) :
    joinLines (l :: ls) ≠ [] := by
  cases l <;> simp [joinLines]

lemma splitOnNl_append (l rest : List Char) (h : '\n' ∉ l) :
    splitOnNl (l ++ '\n' :: rest) = l :: splitOnNl rest := by
  induction l with
  | nil => simp [splitOnNl]
  | cons c l ih =>
    have hc : ¬c = '\n' := fun hc => h (by rw [hc]; exact List.mem_cons_self _ _)
    have hl : '\n' ∉ l := fun hm => h (List.mem_cons_of_mem _ hm)
    rw [List.cons_append]
    conv_lhs => rw [splitOnNl]
    rw [ih hl]
    simp [hc]

lemma splitOnNl_joinLines (ls : List (List Char))
    (h : ∀ l ∈ ls, '\n' ∉ l) :
    splitOnNl (joinLines ls) = ls ++ [[]] := by
  induction ls with
  | nil => simp [joinLines, splitOnNl]
  | cons l ls ih =>
    rw [joinLines, splitOnNl_append l _ (h l (List.mem_cons_self _ _)),
      ih (fun x hx => h x (List.mem_cons_of_mem _ hx))]
    rfl

lemma pySplitlines_joinLines (ls : List (List Char))
    (h : ∀ l ∈ ls, '\n' ∉ l) :
    pySplitlines (joinLines ls) = ls := by
  cases ls with
  | nil => rfl
  | cons l ls =>
    have hsplit := splitOnNl_joinLines (l :: ls) h
    cases hj : joinLines (l :: ls) with
    | nil => exact absurd hj (joinLines_cons_ne_nil l ls)
    | cons x xs =>
      show (if (splitOnNl (x :: xs)).getLast? = some [] then
          (splitOnNl (x :: xs)).dropLast else splitOnNl (x :: xs)) = l :: ls
      rw [← hj, hsplit, List.getLast?_concat, if_pos rfl, List.dropLast_concat]

lemma setupState_indices (cfg : Config) (manifest : List Char) (amb : Nat) :
    (setupState cfg manifest amb).indices
      = (pySplitlines manifest).map (fun l => String.mk l) := by
  unfold setupState
  cases hb : (if containsTrain cfg.split then cfg.randomize else false) <;>
    simp [hb]

/-- C4 counterexample: the manifest content "a\n\nb\n" has non-empty lines
`["a", "b"]`, but setup's index list keeps the interior empty line as an
empty identifier, giving `["a", "", "b"]`. -/
theorem c4_counterexample :
    (setupState ⟨"d", "val", [0], false, none, false⟩ "a\n\nb\n".toList 0).indices
        = ["a", "", "b"] ∧
    (["a", "", "b"] : List String) ≠ ["a", "b"] := by
  decide

/-- C4 amended: setup builds the index list from the manifest's lines in
file order, where a trailing final newline contributes no entry but
interior empty lines are kept as empty identifiers: joining any
newline-free lines with a terminating newline each, setup recovers exactly
those lines in order. -/
theorem c4_index_list_is_lines (cfg : Config) (amb : Nat)
    (ls : List (List Char)) (h : ∀ l ∈ ls, '\n' ∉ l) :
    (setupState cfg (joinLines ls) amb).indices
      = ls.map (fun l => String.mk l) := by
  rw [setupState_indices, pySplitlines_joinLines ls h]

/-- C4 witness: the three lines "a", "", "b" (one of them empty) survive as
the three identifiers of the index list, in order. -/
theorem c4_index_list_is_lines_witness :
    (setupState ⟨"d", "val", [0], false, none, false⟩
        (joinLines [['a'], [], ['b']]) 0).indices
      = ([['a'], [], ['b']] : List (List Char)).map (fun l => String.mk l) :=
  c4_index_list_is_lines ⟨"d", "val", [0], false, none, false⟩ 0
    [['a'], [], ['b']] (by decide)

/-! Elementwise structure of the preprocessing pipelines. -/

lemma cell2_map (f : α → β) (g : List (List α)) (h w : Nat) :
    cell2 (g.map (List.map f)) h w = (cell2 g h w).map f := by
  unfold cell2
  rw [List.getElem?_map]
  cases g[h]? with
  | none => rfl
  | some r => simp [List.getElem?_map]

lemma cell3_singleton (x : List (List α)) (h w : Nat) :
    cell3 [x] 0 h w = cell2 x h w := rfl

lemma transpose201_cell (q : List (List (List ℚ))) (c h w : Nat) (hc : c < 3) :
    cell3 (transpose201 q) c h w
      = (cell2 q h w).map (fun px => px.getD c 0) := by
  unfold cell3 transpose201
  rw [List.getElem?_map, List.getElem?_range hc]
  simp only [Option.map_some']
  exact cell2_map _ q h w

/-- C5: `load_label` thresholds elementwise at 255·2/3 when binarizing and
rescales elementwise by 1/255 otherwise, each under a prepended leading
singleton dimension; the values 0, 170, 200, 255 give false, false, true,
true when binarized and round to 0.000, 0.667, 0.784, 1.000 when rescaled. -/
theorem c5_label_binarize_rescale (png : List (List Nat)) (h w v : Nat)
    (hv : cell2 png h w = some v) :
    (load_label_bin png).length = 1 ∧
    (load_label_resc png).length = 1 ∧
    cell3 (load_label_bin png) 0 h w
      = some (decide ((255 * 2 / 3 : ℚ) < (v : ℚ))) ∧
    cell3 (load_label_resc png) 0 h w = some ((v : ℚ) / 255) ∧
    load_label_bin [[0, 170, 200, 255]] = [[[false, false, true, true]]] ∧
    (load_label_resc [[0, 170, 200, 255]]).map
        (List.map (List.map (fun q => round (1000 * q))))
      = [[[0, 667, 784, 1000]]] := by
  refine ⟨rfl, rfl, ?_, ?_, ?_, ?_⟩
  · rw [load_label_bin, cell3_singleton, cell2_map, hv]
    rfl
  · rw [load_label_resc, cell3_singleton, cell2_map, hv]
    rfl
  · norm_num [load_label_bin]
  · norm_num [load_label_resc, round_eq]

/-- C5 witness: the pixel value 200 at position (0, 0). -/
theorem c5_label_binarize_rescale_witness :
    (load_label_bin [[200]]).length = 1 ∧
    (load_label_resc [[200]]).length = 1 ∧
    cell3 (load_label_bin [[200]]) 0 0 0
      = some (decide ((255 * 2 / 3 : ℚ) < (200 : ℚ))) ∧
    cell3 (load_label_resc [[200]]) 0 0 0 = some ((200 : ℚ) / 255) ∧
    load_label_bin [[0, 170, 200, 255]] = [[[false, false, true, true]]] ∧
    (load_label_resc [[0, 170, 200, 255]]).map
        (List.map (List.map (fun q => round (1000 * q))))
      = [[[0, 667, 784, 1000]]] :=
  c5_label_binarize_rescale [[200]] 0 0 200 (by decide)

/-- C6: each entry `[c][h][w]` of `load_image` on a 3-channel source image
is the source pixel's channel `2 - c` (the RGB to BGR reversal), cast to
float, minus the mean's entry `c`, in channel-first layout — the reference
computation of the spec, elementwise. -/
theorem c6_image_preprocessing (mean : List ℚ) (im : List (List (List Nat)))
    (c h w : Nat) (px : List Nat) (hc : c < 3) (hv : cell2 im h w = some px)
    (hpx : px.length = 3) (hm : mean.length = 3) :
    cell3 (load_image_core mean im) c h w
      = some (((px.getD (2 - c) 0 : Nat) : ℚ) - mean.getD c 0) := by
  unfold load_image_core
  rw [transpose201_cell _ _ _ _ hc, cell2_map, cell2_map, cell2_map, hv]
  obtain ⟨r, g, b, rfl⟩ := List.length_eq_three.mp hpx
  obtain ⟨m0, m1, m2, rfl⟩ := List.length_eq_three.mp hm
  interval_cases c <;>
    simp [List.getD, Option.map_some']

/-- C6 witness: a 1×1 image with pixel (10, 20, 30) and mean (1, 2, 3):
channel 0 of the output is the blue value 30 minus the first mean entry. -/
theorem c6_image_preprocessing_witness :
    cell3 (load_image_core [1, 2, 3] [[[10, 20, 30]]]) 0 0 0
      = some (((([10, 20, 30] : List Nat).getD (2 - 0) 0 : Nat) : ℚ)
          - ([1, 2, 3] : List ℚ).getD 0 0) :=
  c6_image_preprocessing [1, 2, 3] [[[10, 20, 30]]] 0 0 0 [10, 20, 30]
    (by decide) (by decide) (by decide) (by decide)

/-- C7: `setup` succeeds past its slot validation exactly when two tops and
zero bottoms are declared; any other count of output or input slots makes
it raise instead. -/
theorem c7_slot_validation (cfg : Config) (nBottom nTop : Nat)
    (manifest : List Char) (amb : Nat) :
    (∃ st, setup cfg nBottom nTop manifest amb = .ok st) ↔
      (nTop = 2 ∧ nBottom = 0) := by
  unfold setup
  by_cases ht : nTop = 2 <;> by_cases hb : nBottom = 0 <;> simp [ht, hb]

/-- C8: `load_image` returns a tensor exactly when the image file is
present and decodes to an array whose pixels all have exactly 3 channels;
a missing or unreadable file, a grayscale (2-D) decode, or any other
channel count raise an error instead. -/
theorem c8_image_load_errors (fsi : String → Option Decoded) (maindir : String)
    (mean : List ℚ) (stem : String) :
    (∃ t, load_image fsi maindir mean stem = .ok t) ↔
      (∃ g, fsi (imagePath maindir stem) = some (.color g) ∧
        g.all (fun row => row.all (fun px => px.length = 3)) = true) := by
  unfold load_image
  cases hf : fsi (imagePath maindir stem) with
  | none => simp
  | some d =>
    cases d with
    | gray g => simp
    | color g =>
      dsimp only
      by_cases hch : g.all (fun row => row.all (fun px => px.length = 3)) = true
      · rw [if_pos hch]
        exact ⟨fun _ => ⟨g, rfl, hch⟩, fun _ => ⟨_, rfl⟩⟩
      · rw [if_neg hch]
        constructor
        · rintro ⟨t, ht⟩
          exact Except.noConfusion ht
        · rintro ⟨g2, hg2, hall⟩
          simp only [Option.some.injEq, Decoded.color.injEq] at hg2
          subst hg2
          exact absurd hall hch

/-- C9: on a 3-channel H×W source image and an H×W label map, the image
tensor has shape (3, H, W) and the label tensor (in either mode) shape
(1, H, W): the tensors of one sample share identical height and width. -/
theorem c9_shape_contract (mean : List ℚ) (im : List (List (List Nat)))
    (lab : List (List Nat)) (H W : Nat)
    (him : im.length = H) (himr : ∀ row ∈ im, row.length = W)
    (_hch : ∀ row ∈ im, ∀ px ∈ row, px.length = 3)
    (hlab : lab.length = H) (hlabr : ∀ r ∈ lab, r.length = W) :
    isShape (load_image_core mean im) 3 H W ∧
    isShape (load_label_bin lab) 1 H W ∧
    isShape (load_label_resc lab) 1 H W := by
  refine ⟨⟨by simp [load_image_core, transpose201], ?_⟩,
    ⟨rfl, ?_⟩, ⟨rfl, ?_⟩⟩
  · intro p hp
    simp only [load_image_core, transpose201, List.map_map, List.mem_map,
      List.mem_range] at hp
    obtain ⟨c, hc, rfl⟩ := hp
    refine ⟨by simp [him], ?_⟩
    intro r hr
    simp only [List.mem_map, Function.comp] at hr
    obtain ⟨row, hrow, rfl⟩ := hr
    simp [himr row hrow]
  · intro p hp
    rw [load_label_bin, List.mem_singleton] at hp
    subst hp
    refine ⟨by simp [hlab], ?_⟩
    intro r hr
    simp only [List.mem_map] at hr
    obtain ⟨row, hrow, rfl⟩ := hr
    simp [hlabr row hrow]
  · intro p hp
    rw [load_label_resc, List.mem_singleton] at hp
    subst hp
    refine ⟨by simp [hlab], ?_⟩
    intro r hr
    simp only [List.mem_map] at hr
    obtain ⟨row, hrow, rfl⟩ := hr
    simp [hlabr row hrow]

/-- C9 witness: a 1×2 image with 3-channel pixels and a 1×2 label map. -/
theorem c9_shape_contract_witness :
    isShape (load_image_core [1, 2, 3] [[[1, 2, 3], [4, 5, 6]]]) 3 1 2 ∧
    isShape (load_label_bin [[7, 8]]) 1 1 2 ∧
    isShape (load_label_resc [[7, 8]]) 1 1 2 :=
  c9_shape_contract [1, 2, 3] [[[1, 2, 3], [4, 5, 6]]] [[7, 8]] 1 2
    (by decide) (by decide) (by decide) (by decide) (by decide)

/-- C10: a successful `reshape` leaves the cursor `idx`, the index list and
the random state untouched (only `setup` and `forward` move them), and an
immediately repeated `reshape` over the unchanged filesystem succeeds with
the very same state, i.e. loads the identical image/label pair. -/
theorem c10_reshape_frame (fs : FS) (st st2 : LayerState)
    (h : reshape fs st = .ok st2) :
    st2.idx = st.idx ∧ st2.indices = st.indices ∧ st2.random = st.random ∧
    st2.rng = st.rng ∧ reshape fs st2 = .ok st2 := by
  unfold reshape at h
  split at h
  · exact absurd h (by simp)
  · rename_i stem hs
    split at h
    · exact absurd h (by simp)
    · rename_i d hi
      split at h
      · exact absurd h (by simp)
      · rename_i l hl
        injection h with h2
        subst h2
        refine ⟨rfl, rfl, rfl, rfl, ?_⟩
        unfold reshape
        dsimp only
        simp only [hs, hi, hl]

/-- Concrete filesystem for the C10 witness: every jpg path holds a 1×1
3-channel image, every png path a 1×1 label map. -/
def fsW : FS := ⟨fun _ => some (.color [[[1, 2, 3]]]), fun _ => some [[0]]⟩

/-- Concrete layer state for the C10 witness. -/
def stW : LayerState :=
  ⟨"d", "val", [1, 2, 3], false, none, true, ["a"], 0, 0, none, none⟩

/-- The state after one `reshape` of `stW` against `fsW`. -/
def stW2 : LayerState :=
  { stW with data := some (load_image_core [1, 2, 3] [[[1, 2, 3]]]),
             label := some (Sum.inl (load_label_bin [[0]])) }

/-- C10 witness: one concrete `reshape`, then the frame conditions and the
repeated call. -/
theorem c10_reshape_frame_witness :
    stW2.idx = stW.idx ∧ stW2.indices = stW.indices ∧
    stW2.random = stW.random ∧ stW2.rng = stW.rng ∧
    reshape fsW stW2 = .ok stW2 :=
  c10_reshape_frame fsW stW stW2 rfl

end GDI
